import Mathlib

/-!
Verification development for the `ipmi_exporter` repository.

The Go sources are shallowly embedded: strings are modelled as their
character sequences (the inputs of interest are ASCII, where Go's byte
indexing and Lean's character indexing agree), machine floats are modelled
as exact decimals with an explicit not-a-number marker, and the external
command executions are modelled as an environment value recording each
diagnostic command's outcome.  Go panics (index out of range) are modelled
as an explicit abnormal-termination constructor.
-/

namespace IpmiExporter

/-- Character class of Go's `unicode.IsSpace` / regexp `\s` restricted to
ASCII: space, tab, newline, vertical tab, form feed, carriage return. -/
def goIsSpace (c : Char) : Bool :=
  c = ' ' || c = '\t' || c = '\n' || c = '\x0b' || c = '\x0c' || c = '\r'

/-- `strings.Split(s, sep)` for a one-character separator, on character
lists.  Mirrors Go: the result is never empty, and splitting the empty
string yields one empty field. -/
def splitChar (sep : Char) : List Char → List (List Char)
  | [] => [[]]
  | c :: cs =>
    let r := splitChar sep cs
    if c = sep then [] :: r
    else
      match r with
      | [] => [[c]]
      | w :: ws => (c :: w) :: ws

/-- `strings.Trim(s, cutset)` for a one-character cutset: remove all
leading and trailing occurrences of `cut`. -/
def goTrimChar (cut : Char) (cs : List Char) : List Char :=
  ((cs.dropWhile (· = cut)).reverse.dropWhile (· = cut)).reverse

/-- Helper for `goFields`: split into maximal whitespace-free runs,
accumulating the current (reversed) run in `cur`. -/
def splitWsGo : List Char → List Char → List (List Char)
  | [], cur => if cur.isEmpty then [] else [cur.reverse]
  | c :: cs, cur =>
    if goIsSpace c then
      if cur.isEmpty then splitWsGo cs [] else cur.reverse :: splitWsGo cs []
    else
      splitWsGo cs (c :: cur)

/-- `strings.Fields(s)`: the whitespace-delimited words of `s`. -/
def goFields (cs : List Char) : List (List Char) :=
  splitWsGo cs []

/-- `strings.Index(s, "-")` for the one-character pattern: index of the
first occurrence, `none` standing for Go's `-1`. -/
def goIndexOfChar (c : Char) : List Char → Option Nat
  | [] => none
  | x :: xs => if x = c then some 0 else (goIndexOfChar c xs).map (· + 1)

/-- Digit run to a natural number (most significant first). -/
def digitsToNat (ds : List Char) : Nat :=
  ds.foldl (fun a c => a * 10 + (c.toNat - 48)) 0

/-- `strconv.ParseInt(s, 10, 64)`: optional sign, non-empty run of decimal
digits, value within the signed 64-bit range; `none` models a non-nil
error. -/
def parseInt64 (s : String) : Option Int :=
  let cs := s.toList
  let signAndDigits : Int × List Char :=
    match cs with
    | '+' :: t => (1, t)
    | '-' :: t => (-1, t)
    | t => (1, t)
  let sign := signAndDigits.1
  let ds := signAndDigits.2
  if ds.isEmpty then none
  else if ds.all Char.isDigit then
    let v : Int := sign * (digitsToNat ds : Int)
    if v < -(2 ^ 63) || 2 ^ 63 ≤ v then none else some v
  else none

/-- A Go `float64` value as carried by this program: either the
not-a-number marker (`math.NaN()`) or an exact decimal `mant / 10^scale`.
Exact decimals stand in for binary floats; no claim depends on float
rounding, only on parse success and on which value object is carried. -/
inductive Val where
  | nan : Val
  | num (mant : Int) (scale : Nat) : Val
deriving DecidableEq, Repr

/-- Decimal value from sign, integer digits, fraction digits and exponent,
as `sign·digits × 10^(exp - |frac|)` in the exact-decimal representation. -/
def decimalVal (sign : Int) (ip fp : List Char) (exp : Int) : Val :=
  let m : Int := sign * (digitsToNat (ip ++ fp) : Int)
  let e : Int := exp - (fp.length : Int)
  if 0 ≤ e then .num (m * 10 ^ e.toNat) 0 else .num m (-e).toNat

/-- `strconv.ParseFloat(s, 64)` restricted to plain decimal literals
(optional sign, digits with optional fraction, optional `e`/`E` exponent).
The special `Inf`/`NaN` spellings and hex floats accepted by Go are not
modelled; no claim mentions them.  `none` models a non-nil error. -/
def parseFloat (s : String) : Option Val :=
  let cs := s.toList
  let signAndRest : Int × List Char :=
    match cs with
    | '+' :: t => (1, t)
    | '-' :: t => (-1, t)
    | t => (1, t)
  let sign := signAndRest.1
  let rest := signAndRest.2
  let ip := rest.takeWhile Char.isDigit
  let afterInt := rest.dropWhile Char.isDigit
  let fracAndRest : List Char × List Char :=
    match afterInt with
    | '.' :: t => (t.takeWhile Char.isDigit, t.dropWhile Char.isDigit)
    | t => ([], t)
  let fp := fracAndRest.1
  let afterFrac := fracAndRest.2
  if ip.isEmpty && fp.isEmpty then none
  else
    match afterFrac with
    | [] => some (decimalVal sign ip fp 0)
    | e :: t =>
      if e = 'e' || e = 'E' then
        let esignAndRest : Int × List Char :=
          match t with
          | '+' :: u => (1, u)
          | '-' :: u => (-1, u)
          | u => (1, u)
        let es := esignAndRest.1
        let eds := esignAndRest.2.takeWhile Char.isDigit
        let remaining := esignAndRest.2.dropWhile Char.isDigit
        if eds.isEmpty || !remaining.isEmpty then none
        else some (decimalVal sign ip fp (es * (digitsToNat eds : Int)))
      else none

/-- The `sensorData` struct: one parsed row of `ipmimonitoring` tabular
output. -/
structure SensorData where
  ID : Int
  Name : String
  -- the Go field is `Type`, a reserved word in Lean
  Typ : String
  State : String
  Value : Val
  Unit : String
  Event : String
deriving DecidableEq, Repr

/-- Sensor-name normalization from `splitMonitoringOutput`
(src/unnamed/part_002 lines 294-303): when the field holds more than one
whitespace-delimited word, `strings.ReplaceAll(name, " ", "_")` then
`strings.ReplaceAll(name, "/", "")`; afterwards, when
`strings.Index(name, "-") == 2`, drop the first three characters and
`strings.ReplaceAll(name, "-", "_")`. -/
def nameStem (cs : List Char) : List Char :=
  if (goFields cs).length > 1 then
    (cs.map (fun c => if c = ' ' then '_' else c)).filter (fun c => c ≠ '/')
  else cs

/-- Second normalization stage on top of `nameStem`: the vendor-prefix
collapse guarded by `strings.Index(name, "-") == 2`. -/
def normalizeName (s : String) : String :=
  let n1 := nameStem s.toList
  if goIndexOfChar '-' n1 = some 2 then
    String.mk ((n1.drop 3).map (fun c => if c = '-' then '_' else c))
  else String.mk n1

/-- Outcome of one iteration of the record loop in
`splitMonitoringOutput`: the row is skipped (`continue` after an id parse
failure), the iteration panics on an out-of-range field index, the whole
parse returns early on a value parse failure, or a `sensorData` row is
produced. -/
inductive RecOut where
  | skipRec : RecOut
  | panicRec : RecOut
  | valErr : RecOut
  | okRec (d : SensorData) : RecOut
deriving DecidableEq, Repr

/-- The trimmed pipe-delimited fields of one record
(`strings.Split(line[0], "|")` followed by `strings.Trim(field, " ")`). -/
def recordFields (s : String) : List String :=
  (splitChar '|' s.toList).map (fun f => String.mk (goTrimChar ' ' f))

/-- The body of the `for _, line := range records` loop of
`splitMonitoringOutput` (src/unnamed/part_002 lines 283-320) for one
record, with Go's out-of-range slice indexing surfaced as `panicRec`.
Field accesses happen in source order: index 0 (always present), indices
1-4, the value parse of field 4, then indices 5-6. -/
def procRecord (s : String) : RecOut :=
  let line := recordFields s
  match parseInt64 (line.headD "") with
  | none => .skipRec
  | some id =>
    match line.get? 1 with
    | none => .panicRec
    | some f1 =>
      let name := normalizeName f1
      match line.get? 2, line.get? 3, line.get? 4 with
      | some ty, some st, some vf =>
        let v? : Option Val := if vf = "N/A" then some .nan else parseFloat vf
        match v? with
        | none => .valErr
        | some v =>
          match line.get? 5, line.get? 6 with
          | some un, some ev =>
            .okRec ⟨id, name, ty, st, v, un, String.mk (goTrimChar '\x27' ev.toList)⟩
          | _, _ => .panicRec
      | _, _, _ => .panicRec

/-- Result of `splitMonitoringOutput`: a Go panic, or the returned pair
`(result, err)` with `ok` standing for a nil error and `err` for a
non-nil one (the partial result is carried along, as in the source). -/
inductive SplitOutcome where
  | panicked : SplitOutcome
  | ok (rs : List SensorData) : SplitOutcome
  | err (rs : List SensorData) : SplitOutcome
deriving DecidableEq, Repr

/-- The record loop of `splitMonitoringOutput`.  `lastErr` tracks the `err`
variable: it is reassigned by every `strconv.ParseInt` (true after a
skipped row, false after a produced row) and is what the final
`return result, err` reports. -/
def splitLoop : List String → List SensorData → Bool → SplitOutcome
  | [], acc, e => if e then .err acc else .ok acc
  | r :: rest, acc, _ =>
    match procRecord r with
    | .skipRec => splitLoop rest acc true
    | .panicRec => .panicked
    | .valErr => .err acc
    | .okRec d => splitLoop rest (acc ++ [d]) false

/-- `splitMonitoringOutput` (src/unnamed/part_002 lines 278-322) over the
list of CSV records (each record's first field). -/
def splitMonitoringOutput (records : List String) : SplitOutcome :=
  splitLoop records [] false

/-- The `csv.NewReader(...).ReadAll` stage, modelled for inputs free of
commas, double quotes and bare carriage returns: each non-blank line
yields a single-field record, so the record list is the list of non-empty
lines.  (The general CSV reader is an external library; all inputs this
program feeds it are of this restricted shape.) -/
def goLines (s : String) : List String :=
  ((splitChar '\n' s.toList).map (fun l => String.mk l)).filter (fun l => l ≠ "")

/-- `ipmiTarget` from the config file (src/unnamed/part_003). -/
structure IpmiTarget where
  Host : String
  User : String
  Pwd : String
deriving DecidableEq, Repr

/-- A `prometheus.Desc`: the fully-qualified metric-family name built by
`prometheus.BuildFQName` and the variable-label schema. -/
structure Desc where
  fqName : String
  labelNames : List String
deriving DecidableEq, Repr

/-- A constant gauge metric as built by `prometheus.MustNewConstMetric`:
its family descriptor, its float value and its label values (in the
schema's order). -/
structure Metric where
  desc : Desc
  value : Val
  labelValues : List String
deriving DecidableEq, Repr

def sensorStateDesc : Desc := ⟨"ipmi_sensor_state", ["id", "name", "type", "host"]⟩

def sensorValueDesc : Desc := ⟨"ipmi_sensor_value", ["id", "name", "type", "host"]⟩

def fanSpeedDesc : Desc := ⟨"ipmi_fan_speed_rpm", ["id", "name", "host"]⟩

def fanSpeedStateDesc : Desc := ⟨"ipmi_fan_speed_state", ["id", "name", "host"]⟩

def temperatureDesc : Desc := ⟨"ipmi_temperature_celsius", ["id", "name", "host"]⟩

def temperatureStateDesc : Desc := ⟨"ipmi_temperature_state", ["id", "name", "host"]⟩

def voltageDesc : Desc := ⟨"ipmi_voltage_volts", ["id", "name", "host"]⟩

def voltageStateDesc : Desc := ⟨"ipmi_voltage_state", ["id", "name", "host"]⟩

def currentDesc : Desc := ⟨"ipmi_current_amperes", ["id", "name", "host"]⟩

def currentStateDesc : Desc := ⟨"ipmi_current_state", ["id", "name", "host"]⟩

def powerDesc : Desc := ⟨"ipmi_power_watts", ["id", "name", "host"]⟩

def powerStateDesc : Desc := ⟨"ipmi_power_state", ["id", "name", "host"]⟩

def powerConsumption : Desc := ⟨"ipmi_dcmi_power_consumption_watts", ["host"]⟩

def chassisPowerState : Desc := ⟨"ipmi_chassis_power_state", ["host"]⟩

def chassisDriveFault : Desc := ⟨"ipmi_chassis_dirve_fault", ["host"]⟩

def chassisCoolingFault : Desc := ⟨"ipmi_chassis_cooling_fault", ["host"]⟩

def upDesc : Desc := ⟨"ipmi_up", ["collector", "host"]⟩

def durationDesc : Desc := ⟨"ipmi_scrape_duration_seconds", ["host"]⟩

/-- Decimal digits of a natural number, with a structural fuel
parameter. -/
def natDigits (fuel n : Nat) : List Char :=
  match fuel with
  | 0 => []
  | fuel + 1 =>
    if n < 10 then [Nat.digitChar n]
    else natDigits fuel (n / 10) ++ [Nat.digitChar (n % 10)]

/-- `strconv.FormatInt(i, 10)`: the decimal rendering of a 64-bit
integer. -/
def formatInt (i : Int) : String :=
  if i < 0 then String.mk ('-' :: natDigits i.natAbs i.natAbs)
  else String.mk (natDigits (i.natAbs + 1) i.natAbs)

/-- The qualitative-state switch of `collectMonitoring`
(src/unnamed/part_002 lines 443-455): `Nominal`/`Warning`/`Critical` map
to 0/1/2 and `N/A` or anything else maps to `math.NaN()` (the unknown
case is additionally logged, never an error). -/
def severityOf (state : String) : Val :=
  if state = "Nominal" then .num 0 0
  else if state = "Warning" then .num 1 0
  else if state = "Critical" then .num 2 0
  else if state = "N/A" then .nan
  else .nan

/-- `collectTypedSensor` (src/unnamed/part_002 lines 370-389): one value
metric and one state metric, both labeled by the decimal sensor id, the
sensor name and the target host. -/
def collectTypedSensor (desc stateDesc : Desc) (state : Val) (data : SensorData)
    (target : IpmiTarget) : List Metric :=
  [⟨desc, data.Value, [formatInt data.ID, data.Name, target.Host]⟩,
   ⟨stateDesc, state, [formatInt data.ID, data.Name, target.Host]⟩]

/-- `collectGenericSensor` (src/unnamed/part_002 lines 391-412): the
generic value/state pair, additionally labeled by the sensor type. -/
def collectGenericSensor (state : Val) (data : SensorData)
    (target : IpmiTarget) : List Metric :=
  [⟨sensorValueDesc, data.Value, [formatInt data.ID, data.Name, data.Typ, target.Host]⟩,
   ⟨sensorStateDesc, state, [formatInt data.ID, data.Name, data.Typ, target.Host]⟩]

/-- One iteration of the classification loop of `collectMonitoring`
(src/unnamed/part_002 lines 440-479): severity encoding followed by the
unit switch dispatching to a typed family or the generic fallback. -/
def sensorObservations (data : SensorData) (target : IpmiTarget) : List Metric :=
  let state := severityOf data.State
  if data.Unit = "RPM" then collectTypedSensor fanSpeedDesc fanSpeedStateDesc state data target
  else if data.Unit = "C" then collectTypedSensor temperatureDesc temperatureStateDesc state data target
  else if data.Unit = "A" then collectTypedSensor currentDesc currentStateDesc state data target
  else if data.Unit = "V" then collectTypedSensor voltageDesc voltageStateDesc state data target
  else if data.Unit = "W" then collectTypedSensor powerDesc powerStateDesc state data target
  else collectGenericSensor state data target

/-- Strip `label` from the front of `rest`; models the literal prefix of
an anchored regular expression. -/
def stripLabel : List Char → List Char → Option (List Char)
  | [], rest => some rest
  | _ :: _, [] => none
  | l :: ls, c :: cs => if c = l then stripLabel ls cs else none

/-- One line against `^<label>\s*:\s(?P<value>.*)` (the three chassis
patterns, src/unnamed/part_002 lines 119-121): the literal label, any run
of whitespace, a colon, exactly one whitespace character, and the rest of
the line as the `value` capture.  Greedy matching is exact here because
`\s` and `:` are disjoint. -/
def matchLabeled (label : String) (line : String) : Option String :=
  match stripLabel label.toList line.toList with
  | none => none
  | some rest =>
    match rest.dropWhile goIsSpace with
    | ':' :: c :: cs => if goIsSpace c then some (String.mk cs) else none
    | _ => none

/-- One line against
`^Current Power\s*:\s*(?P<value>[0-9.]*)\s*Watts.*`
(src/unnamed/part_002 line 118).  Greedy matching is exact because the
classes `\s`, `[0-9.]` and the letter `W` are pairwise disjoint. -/
def dcmiPowerMatch (line : String) : Option String :=
  match stripLabel "Current Power".toList line.toList with
  | none => none
  | some rest =>
    match rest.dropWhile goIsSpace with
    | ':' :: cs =>
      let cs1 := cs.dropWhile goIsSpace
      let v := cs1.takeWhile (fun c => c.isDigit || c = '.')
      let cs2 := cs1.dropWhile (fun c => c.isDigit || c = '.')
      match stripLabel "Watts".toList (cs2.dropWhile goIsSpace) with
      | none => none
      | some _ => some (String.mk v)
    | _ => none

/-- `getValue` (src/unnamed/part_002 lines 324-338): split the output on
newlines and return the `value` capture of the first matching line;
`none` models the "could not find value" error. -/
def getValue (output : String) (matcher : String → Option String) : Option String :=
  ((splitChar '\n' output.toList).map (fun l => String.mk l)).findSome? matcher

/-- The numeric encoding of a chassis status word in `getChassis`:
`on` and `false` map to 1, everything else to 0. -/
def chassisVal (v : String) : Val :=
  if v = "on" || v = "false" then .num 1 0 else .num 0 0

/-- `getChassis` (src/unnamed/part_002 lines 348-357): extract the value
word and encode it. -/
def getChassis (output : String) (matcher : String → Option String) : Option Val :=
  (getValue output matcher).map chassisVal

/-- `getCurrentPowerConsumption` (src/unnamed/part_002 lines 340-346):
extract the DCMI power value and parse it as a float. -/
def getCurrentPowerConsumption (output : String) : Option Val :=
  (getValue output dcmiPowerMatch).bind parseFloat

/-- The outcomes of the three external diagnostic commands for one
target during one cycle, plus the measured scrape-duration value: the
command-execution collaborator (`ipmiOutput`) returns stdout bytes or an
error carrying stderr text. -/
structure Env where
  monitoring : Except String String
  dcmi : Except String String
  chassis : Except String String
  durationVal : Val
deriving Repr

/-- Result of running embedded Go code that can panic: `abort` is an
abnormal termination (index out of range), `ret` a normal return. -/
inductive Outcome (α : Type) where
  | abort : Outcome α
  | ret (a : α) : Outcome α
deriving DecidableEq, Repr

/-- `collectMonitoring` (src/unnamed/part_002 lines 422-481): command
failure or parse failure return `(0, err, nil)`; success classifies every
parsed row and returns `(1, nil, metrics)`.  The ignored error component
is dropped (`IpmiCollect` discards it). -/
def collectMonitoring (env : Env) (target : IpmiTarget) : Outcome (Nat × List Metric) :=
  match env.monitoring with
  | .error _ => .ret (0, [])
  | .ok out =>
    match splitMonitoringOutput (goLines out) with
    | .panicked => .abort
    | .err _ => .ret (0, [])
    | .ok results =>
      .ret (1, results.foldl (fun acc d => acc ++ sensorObservations d target) [])

/-- `collectDCMI` (src/unnamed/part_002 lines 483-506): on command or
parse failure returns `(0, err, nil)` — the metric slot is the nil
interface value, modelled as `none`. -/
def collectDCMI (env : Env) (target : IpmiTarget) : Nat × Option Metric :=
  match env.dcmi with
  | .error _ => (0, none)
  | .ok out =>
    match getCurrentPowerConsumption out with
    | none => (0, none)
    | some v => (1, some ⟨powerConsumption, v, [target.Host]⟩)

/-- `collectChassisState` (src/unnamed/part_002 lines 508-558): the three
labeled patterns are extracted in order; a failure returns availability 0
together with the metrics already appended. -/
def collectChassisState (env : Env) (target : IpmiTarget) : Nat × List Metric :=
  match env.chassis with
  | .error _ => (0, [])
  | .ok out =>
    match getChassis out (matchLabeled "System Power") with
    | none => (0, [])
    | some v1 =>
      let m1 : Metric := ⟨chassisPowerState, v1, [target.Host]⟩
      match getChassis out (matchLabeled "Drive Fault") with
      | none => (0, [m1])
      | some v2 =>
        let m2 : Metric := ⟨chassisDriveFault, v2, [target.Host]⟩
        match getChassis out (matchLabeled "Cooling/fan fault") with
        | none => (0, [m1, m2])
        | some v3 => (1, [m1, m2, ⟨chassisCoolingFault, v3, [target.Host]⟩])

/-- `markCollectorUp` (src/unnamed/part_002 lines 560-568). -/
def markCollectorUp (name : String) (up : Nat) (target : IpmiTarget) : Metric :=
  ⟨upDesc, .num up 0, [name, target.Host]⟩

/-- One iteration of the collector loop of `IpmiCollect`
(src/unnamed/part_002 lines 583-601): the switch on the collector name
followed by the unconditional `markCollectorUp` append.  The `ipmi-dcmi`
arm appends its single (possibly nil) metric slot unconditionally, so a
`none` entry appears on failure. -/
def blockOf (c : String) (env : Env) (target : IpmiTarget) :
    Outcome (List (Option Metric)) :=
  if c = "ipmimonitoring" then
    match collectMonitoring env target with
    | .abort => .abort
    | .ret (up, ms) => .ret (ms.map some ++ [some (markCollectorUp c up target)])
  else if c = "ipmi-dcmi" then
    let r := collectDCMI env target
    .ret ([r.2] ++ [some (markCollectorUp c r.1 target)])
  else if c = "ipmi-chassis" then
    let r := collectChassisState env target
    .ret (r.2.map some ++ [some (markCollectorUp c r.1 target)])
  else
    .ret [some (markCollectorUp c 0 target)]

/-- The collector loop of `IpmiCollect`, accumulating into `ipmiMetrics`. -/
def ipmiLoop (env : Env) (target : IpmiTarget) :
    List String → List (Option Metric) → Outcome (List (Option Metric))
  | [], acc => .ret acc
  | c :: cs, acc =>
    match blockOf c env target with
    | .abort => .abort
    | .ret b => ipmiLoop env target cs (acc ++ b)

/-- `IpmiCollect` (src/unnamed/part_002 lines 570-604): the scrape
duration metric is appended first, then every configured collector's
block in order.  The result is the per-target published metric list; a
`none` entry is a nil interface value in the Go slice. -/
def IpmiCollect (cfg : List String) (env : Env) (target : IpmiTarget) :
    Outcome (List (Option Metric)) :=
  ipmiLoop env target cfg [some ⟨durationDesc, env.durationVal, [target.Host]⟩]

/-- The availability flag a given collector name contributes, read off the
corresponding sub-collector's first return value. -/
def collectorUp (c : String) (env : Env) (target : IpmiTarget) : Nat :=
  if c = "ipmimonitoring" then
    match collectMonitoring env target with
    | .abort => 0
    | .ret (up, _) => up
  else if c = "ipmi-dcmi" then (collectDCMI env target).1
  else if c = "ipmi-chassis" then (collectChassisState env target).1
  else 0

/-!
### Interleaving model of `flush`

`flush` (src/unnamed/part_000 lines 49-75, src/unnamed/part_002 lines
47-65) starts one goroutine per target; each executes
`targetMetrics = append(targetMetrics, IpmiCollect(...)...)` on the shared
slice with no lock held (the RW-lock in the part_002 variant guards only
the later copy into `metrics`, and in part_000 even that is commented
out).  An unsynchronized slice append is a read-modify-write: load the
slice header, build the extended slice, store the new header.  The model
below exposes those two steps for two workers; metrics are abstracted to
a list of numeric identifiers.
-/

/-- Shared state of one `flush` cycle with two worker goroutines: the
shared `targetMetrics` slice and each worker's loaded copy of it. -/
structure FlushState where
  shared : List Nat
  localA : Option (List Nat)
  localB : Option (List Nat)
deriving DecidableEq, Repr

/-- One atomic step of a worker: load the shared slice header, or store
the appended slice built from the loaded copy. -/
inductive FlushStep where
  | readA : FlushStep
  | readB : FlushStep
  | writeA : FlushStep
  | writeB : FlushStep
deriving DecidableEq, Repr

/-- Effect of one step, where `mA`/`mB` are the metric lists the two
workers' `IpmiCollect` calls produced. -/
def flushStepRun (mA mB : List Nat) (s : FlushState) : FlushStep → FlushState
  | .readA => { s with localA := some s.shared }
  | .readB => { s with localB := some s.shared }
  | .writeA =>
    match s.localA with
    | some l => { s with shared := l ++ mA }
    | none => s
  | .writeB =>
    match s.localB with
    | some l => { s with shared := l ++ mB }
    | none => s

/-- Run a schedule of worker steps from the initial empty
`targetMetrics`. -/
def flushRun (mA mB : List Nat) (steps : List FlushStep) : FlushState :=
  steps.foldl (flushStepRun mA mB) ⟨[], none, none⟩

/-- A schedule is a legal interleaving of the two goroutines when each
worker's own steps occur in its program order: one load then one store. -/
def isInterleaving (steps : List FlushStep) : Bool :=
  steps.filter (fun s => s = .readA || s = .writeA) = [.readA, .writeA] &&
  steps.filter (fun s => s = .readB || s = .writeB) = [.readB, .writeB]

/-!
### Spec-side restatements of the name-normalization rule (for C8)

These two definitions follow the specification's words, not the source;
they exist only to be compared with `normalizeName`, which is translated
from the source.
-/

/-- Word counting as the spec phrases it ("more than one
whitespace-delimited word"): number of positions where a non-whitespace
character follows whitespace (or starts the string). -/
def countWordStarts : Bool → List Char → Nat
  | _, [] => 0
  | prevSpace, c :: cs =>
    (if prevSpace && !goIsSpace c then 1 else 0) + countWordStarts (goIsSpace c) cs

/-- Number of whitespace-delimited words of a character sequence. -/
def wordCount (cs : List Char) : Nat :=
  countWordStarts true cs

/-- The first normalization stage as the spec words it: with more than one
whitespace-delimited word, every space becomes an underscore and every
slash is removed. -/
def specNameStem (cs : List Char) : List Char :=
  if wordCount cs > 1 then
    (cs.map (fun c => if c = ' ' then '_' else c)).filter (fun c => c ≠ '/')
  else cs

/-- The claim's second stage, verbatim: "if the resulting name's third
character is a hyphen, the first three characters are dropped and every
remaining hyphen becomes an underscore". -/
def claimedNormalizeName (s : String) : String :=
  let m := specNameStem s.toList
  if m.get? 2 = some '-' then
    String.mk ((m.drop 3).map (fun c => if c = '-' then '_' else c))
  else String.mk m

/-- The amended second stage: the same transformation, applied only when
the name's FIRST hyphen is its third character (neither of the first two
characters is a hyphen). -/
def amendedNormalizeName (s : String) : String :=
  let m := specNameStem s.toList
  if (∀ c ∈ m.take 2, c ≠ '-') ∧ m.get? 2 = some '-' then
    String.mk ((m.drop 3).map (fun c => if c = '-' then '_' else c))
  else String.mk m

/-!
### Derived notions used to state the claims
-/

/-- The record's field 0 parses as an integer (claim C3/C4 wording). -/
def IdOk (r : String) : Prop :=
  ∃ i, parseInt64 ((recordFields r).headD "") = some i

/-- The record's field 4 is neither the literal `N/A` nor a parseable
float (claim C3 wording). -/
def ValueBad (r : String) : Prop :=
  ∃ vf, (recordFields r).get? 4 = some vf ∧ vf ≠ "N/A" ∧ parseFloat vf = none

/-- The sensor row a record contributes to the parsed result, if any. -/
def parsedRow (r : String) : Option SensorData :=
  match procRecord r with
  | .okRec d => some d
  | _ => none

/-- The concatenation of the per-collector blocks `IpmiCollect` appends
after the duration metric, or `abort` if one of them panics. -/
def blocksOf (env : Env) (target : IpmiTarget) : List String → Outcome (List (Option Metric))
  | [] => .ret []
  | c :: cs =>
    match blockOf c env target with
    | .abort => .abort
    | .ret b =>
      match blocksOf env target cs with
      | .abort => .abort
      | .ret bs => .ret (b ++ bs)

/-- Is this published slot the scrape-duration observation? -/
def isDurationSlot (m? : Option Metric) : Bool :=
  match m? with
  | some m => m.desc = durationDesc
  | none => false

/-- Number of scrape-duration observations in a published list. -/
def durationCount (l : List (Option Metric)) : Nat :=
  l.countP isDurationSlot

/-- The availability observation carried by one published slot, if any. -/
def upSlot (m? : Option Metric) : Option (List String × Val) :=
  match m? with
  | some m => if m.desc = upDesc then some (m.labelValues, m.value) else none
  | none => none

/-- The availability observations of a published list, in order: the
label values and value of every metric in the `ipmi_up` family. -/
def upEntries (l : List (Option Metric)) : List (List String × Val) :=
  l.filterMap upSlot

/-- The `ipmimonitoring` sub-collector fails: command execution error, or
tabular parse error. -/
def monitoringFails (env : Env) : Prop :=
  (∃ e, env.monitoring = .error e) ∨
  (∃ out rs, env.monitoring = .ok out ∧ splitMonitoringOutput (goLines out) = .err rs)

/-- The `ipmi-dcmi` sub-collector fails: command execution error, or
power-value extraction/parse failure. -/
def dcmiFails (env : Env) : Prop :=
  (∃ e, env.dcmi = .error e) ∨
  (∃ out, env.dcmi = .ok out ∧ getCurrentPowerConsumption out = none)

/-- The `ipmi-chassis` sub-collector fails: command execution error, or
one of its three labeled patterns fails to extract. -/
def chassisFails (env : Env) : Prop :=
  (∃ e, env.chassis = .error e) ∨
  (∃ out, env.chassis = .ok out ∧
    (getChassis out (matchLabeled "System Power") = none ∨
     getChassis out (matchLabeled "Drive Fault") = none ∨
     getChassis out (matchLabeled "Cooling/fan fault") = none))

/-!
## Theorems
-/

/-- C1: the claim states that every append of a target's metrics to the
cycle's shared working list is externally synchronized, so the merged
list contains exactly the union of all targets' results.  The code takes
no lock around the appends, so the lost-update interleaving below is
possible: both workers load the empty shared slice, then both store, and
worker A's metric (numbered 0) is absent from the merged list.  This
theorem evaluates the unsynchronized-append model at that failing
schedule. -/
theorem flush_append_race_loses_target :
    isInterleaving [FlushStep.readA, FlushStep.readB, FlushStep.writeA, FlushStep.writeB] = true ∧
    (flushRun [0] [1] [FlushStep.readA, FlushStep.readB, FlushStep.writeA, FlushStep.writeB]).shared = [1] ∧
    0 ∉ (flushRun [0] [1] [FlushStep.readA, FlushStep.readB, FlushStep.writeA, FlushStep.writeB]).shared := by
  decide

/-- C2: the claim states the tabular parser is total and that a record
line with fewer than seven pipe-delimited fields causes no out-of-bounds
access.  On the six-field record below the id parses, the value parses,
and the access to field index 6 is out of range: the code panics.  This
theorem evaluates the parser at that failing input. -/
theorem splitMonitoringOutput_short_record_panics :
    splitMonitoringOutput (goLines "7 | a | b | c | 1.0 | RPM") = SplitOutcome.panicked := by
  decide

/-- C3 counterexample: an input containing a record whose value field
(field 4, here `zz`) is neither `N/A` nor a parseable float, yet the
parse of the entire input succeeds — the record's id field `x` fails
integer parsing first, so the whole record is skipped before the value
field is ever examined. -/
theorem splitMonitoringOutput_bad_value_skipped_id_no_error :
    (recordFields "x|n|t|s|zz|u|a").get? 4 = some "zz" ∧
    parseFloat "zz" = none ∧
    splitMonitoringOutput ["x|n|t|s|zz|u|a", "5|n|t|s|1.0|u|a"] =
      SplitOutcome.ok [⟨5, "n", "t", "s", Val.num 10 1, "u", "a"⟩] := by
  decide

/-- C4 counterexample: a one-record input whose only line has a
non-integer id field.  The record is excluded from the result, but the
parse does not succeed: the loop's `err` variable still holds the id
parse error when `return result, err` runs, so the whole parse reports an
error. -/
theorem splitMonitoringOutput_trailing_skip_is_error :
    parseInt64 "x" = none ∧
    splitMonitoringOutput ["x"] = SplitOutcome.err [] := by
  decide

/-- C6: a sensor reading with unit `RPM` classifies into exactly two
observations, one in the fan-speed value family and one in the fan-speed
state family, both carrying the same three labels: decimal sensor id,
sensor name, target host. -/
theorem rpm_two_observations (data : SensorData) (target : IpmiTarget)
    (h : data.Unit = "RPM") :
    sensorObservations data target =
      [⟨fanSpeedDesc, data.Value, [formatInt data.ID, data.Name, target.Host]⟩,
       ⟨fanSpeedStateDesc, severityOf data.State, [formatInt data.ID, data.Name, target.Host]⟩] := by
  simp [sensorObservations, collectTypedSensor, h]

/-- Witness for C6 at the spec's own example row. -/
theorem rpm_two_observations_witness :
    sensorObservations ⟨7, "Fan_1_Tach", "Fan", "Nominal", Val.num 320000 2, "RPM", "OK"⟩ ⟨"h", "u", "p"⟩ =
      [⟨fanSpeedDesc, Val.num 320000 2, ["7", "Fan_1_Tach", "h"]⟩,
       ⟨fanSpeedStateDesc, Val.num 0 0, ["7", "Fan_1_Tach", "h"]⟩] := by
  have := rpm_two_observations ⟨7, "Fan_1_Tach", "Fan", "Nominal", Val.num 320000 2, "RPM", "OK"⟩ ⟨"h", "u", "p"⟩ rfl
  rw [this]
  decide

/-- C7: the qualitative-state-to-severity mapping: `Nominal` to 0,
`Warning` to 1, `Critical` to 2, `N/A` to not-a-number, and every other
string to not-a-number; the encoding is total, so no state string makes
classification fail. -/
theorem severity_mapping :
    severityOf "Nominal" = Val.num 0 0 ∧
    severityOf "Warning" = Val.num 1 0 ∧
    severityOf "Critical" = Val.num 2 0 ∧
    severityOf "N/A" = Val.nan ∧
    ∀ s : String, s ≠ "Nominal" → s ≠ "Warning" → s ≠ "Critical" → s ≠ "N/A" →
      severityOf s = Val.nan := by
  refine ⟨rfl, rfl, rfl, rfl, ?_⟩
  intro s h1 h2 h3 h4
  simp [severityOf, h1, h2, h3, h4]

/-- Witness for C7 at a state string outside the four known ones. -/
theorem severity_mapping_witness : severityOf "Bogus" = Val.nan :=
  severity_mapping.2.2.2.2 "Bogus" (by decide) (by decide) (by decide) (by decide)

/-- C8 counterexample: on the single-word name `a--b` the third character
is a hyphen, so the claim prescribes dropping the first three characters
(yielding `b`), but the code tests `strings.Index(name, "-") == 2`, which
is false here because an earlier hyphen sits at index 1 — the code leaves
the name unchanged. -/
theorem normalizeName_third_char_hyphen_differs :
    normalizeName "a--b" = "a--b" ∧ claimedNormalizeName "a--b" = "b" ∧
    normalizeName "a--b" ≠ claimedNormalizeName "a--b" := by
  decide

/-- The word splitter produces one word per whitespace-to-nonwhitespace
transition (plus the pending word when the accumulator is non-empty). -/
theorem splitWsGo_length (cs : List Char) :
    ∀ cur, (splitWsGo cs cur).length =
      countWordStarts cur.isEmpty cs + (if cur.isEmpty then 0 else 1) := by
  induction cs with
  | nil =>
    intro cur
    cases cur <;> simp [splitWsGo, countWordStarts]
  | cons c cs ih =>
    intro cur
    by_cases hs : goIsSpace c <;> cases cur <;>
      simp [splitWsGo, countWordStarts, hs, ih] <;> try omega

/-- `strings.Fields` word count agrees with the spec-side word count. -/
theorem goFields_length_eq_wordCount (cs : List Char) :
    (goFields cs).length = wordCount cs := by
  simpa [wordCount] using splitWsGo_length cs []

/-- The code's first normalization stage equals the spec-side stem. -/
theorem nameStem_eq_specNameStem (cs : List Char) :
    nameStem cs = specNameStem cs := by
  rw [nameStem, specNameStem, goFields_length_eq_wordCount]

/-- `strings.Index(m, "-") == 2` holds exactly when the third character is
a hyphen and neither of the first two characters is. -/
theorem goIndexOfChar_eq_two_iff (ch : Char) (m : List Char) :
    goIndexOfChar ch m = some 2 ↔ ((∀ c ∈ m.take 2, c ≠ ch) ∧ m.get? 2 = some ch) := by
  match m with
  | [] => simp [goIndexOfChar]
  | [a] => by_cases h : a = ch <;> simp [goIndexOfChar, h]
  | [a, b] =>
    by_cases h1 : a = ch <;> by_cases h2 : b = ch <;> simp [goIndexOfChar, h1, h2]
  | a :: b :: c :: rest =>
    by_cases h1 : a = ch <;> by_cases h2 : b = ch <;> by_cases h3 : c = ch <;>
      cases hgo : goIndexOfChar ch rest <;>
        simp [goIndexOfChar, h1, h2, h3, hgo]

/-- C8 amended: the name normalization is exactly the claim's
transformation with the hyphen condition read as "the first hyphen of the
name sits at index 2" — on names whose first two characters are
hyphen-free this is the claim's "third character is a hyphen". -/
theorem normalizeName_eq_amended (s : String) :
    normalizeName s = amendedNormalizeName s := by
  rw [normalizeName, amendedNormalizeName, nameStem_eq_specNameStem]
  by_cases h : goIndexOfChar '-' (specNameStem s.toList) = some 2
  · rw [if_pos h, if_pos ((goIndexOfChar_eq_two_iff _ _).mp h)]
  · rw [if_neg h, if_neg (fun hc => h ((goIndexOfChar_eq_two_iff _ _).mpr hc))]

/-- A position below the length always holds an element. -/
theorem get?_isSome_of_lt {α : Type} (l : List α) (n : Nat) (h : n < l.length) :
    ∃ x, l.get? n = some x := by
  cases hx : l.get? n with
  | none => exact absurd (List.get?_eq_none.mp hx) (by omega)
  | some x => exact ⟨x, rfl⟩

/-- A record whose field 0 fails integer parsing is skipped
(`continue`). -/
theorem procRecord_skip (r : String)
    (h : parseInt64 ((recordFields r).headD "") = none) :
    procRecord r = RecOut.skipRec := by
  have h' := h
  simp only [List.headD_eq_head?_getD] at h'
  simp [procRecord, h']

/-- On a record with at least seven pipe-delimited fields whose field 0
parses as an integer, the loop body returns early with the value error
exactly when field 4 is bad, and otherwise produces a row. -/
theorem procRecord_wf (r : String) (hlen : 7 ≤ (recordFields r).length)
    (i : Int) (hid : parseInt64 ((recordFields r).headD "") = some i) :
    (procRecord r = RecOut.valErr ∧ ValueBad r) ∨
    (∃ d, procRecord r = RecOut.okRec d ∧ ¬ ValueBad r) := by
  obtain ⟨f1, h1⟩ := get?_isSome_of_lt (recordFields r) 1 (by omega)
  obtain ⟨f2, h2⟩ := get?_isSome_of_lt (recordFields r) 2 (by omega)
  obtain ⟨f3, h3⟩ := get?_isSome_of_lt (recordFields r) 3 (by omega)
  obtain ⟨f4, h4⟩ := get?_isSome_of_lt (recordFields r) 4 (by omega)
  obtain ⟨f5, h5⟩ := get?_isSome_of_lt (recordFields r) 5 (by omega)
  obtain ⟨f6, h6⟩ := get?_isSome_of_lt (recordFields r) 6 (by omega)
  have hid' := hid
  simp only [List.headD_eq_head?_getD] at hid'
  simp only [List.get?_eq_getElem?] at h1 h2 h3 h4 h5 h6
  by_cases hNA : f4 = "N/A"
  · right
    refine ⟨⟨i, normalizeName f1, f2, f3, .nan, f5, String.mk (goTrimChar '\x27' f6.toList)⟩, ?_, ?_⟩
    · simp [procRecord, hid', h1, h2, h3, h4, h5, h6, hNA]
    · rintro ⟨vf, hvf, hne, _⟩
      simp only [List.get?_eq_getElem?] at hvf
      rw [h4] at hvf
      injection hvf with he
      exact hne (he ▸ hNA)
  · cases hpf : parseFloat f4 with
    | none =>
      left
      refine ⟨by simp [procRecord, hid', h1, h2, h3, h4, h5, h6, hNA, hpf], f4, ?_, hNA, hpf⟩
      simpa only [List.get?_eq_getElem?] using h4
    | some v =>
      right
      refine ⟨⟨i, normalizeName f1, f2, f3, v, f5, String.mk (goTrimChar '\x27' f6.toList)⟩, ?_, ?_⟩
      · simp [procRecord, hid', h1, h2, h3, h4, h5, h6, hNA, hpf]
      · rintro ⟨vf, hvf, hne, hnone⟩
        simp only [List.get?_eq_getElem?] at hvf
        rw [h4] at hvf
        injection hvf with he
        rw [he] at hpf
        rw [hpf] at hnone
        cases hnone

/-- A record with at least seven pipe-delimited fields never panics. -/
theorem procRecord_no_panic (r : String) (hlen : 7 ≤ (recordFields r).length) :
    procRecord r ≠ RecOut.panicRec := by
  cases hpi : parseInt64 ((recordFields r).headD "") with
  | none => rw [procRecord_skip r hpi]; intro h; cases h
  | some i =>
    rcases procRecord_wf r hlen i hpi with ⟨h, _⟩ | ⟨d, h, _⟩ <;> rw [h] <;>
      intro hc <;> cases hc

/-- The record loop returns a non-nil error whenever some record's id
parses but its value field is bad, provided every record is long enough
to be processed without a panic. -/
theorem splitLoop_err (records : List String) :
    ∀ acc e, (∀ r ∈ records, 7 ≤ (recordFields r).length) →
    (∃ r ∈ records, IdOk r ∧ ValueBad r) →
    ∃ rs, splitLoop records acc e = SplitOutcome.err rs := by
  induction records with
  | nil => intro acc e _ hbad; simp at hbad
  | cons r rest ih =>
    intro acc e hwf hbad
    cases hp : procRecord r with
    | skipRec =>
      have hbad' : ∃ x ∈ rest, IdOk x ∧ ValueBad x := by
        rcases hbad with ⟨x, hx, hb⟩
        rcases List.mem_cons.mp hx with rfl | hx'
        · rcases hb.1 with ⟨i, hi⟩
          rcases procRecord_wf x (hwf x (by simp)) i hi with ⟨h, _⟩ | ⟨d, h, _⟩ <;>
            rw [hp] at h <;> cases h
        · exact ⟨x, hx', hb⟩
      simpa [splitLoop, hp] using ih acc true (fun x hx => hwf x (by simp [hx])) hbad'
    | panicRec => exact absurd hp (procRecord_no_panic r (hwf r (by simp)))
    | valErr => exact ⟨acc, by simp [splitLoop, hp]⟩
    | okRec d =>
      have hbad' : ∃ x ∈ rest, IdOk x ∧ ValueBad x := by
        rcases hbad with ⟨x, hx, hb⟩
        rcases List.mem_cons.mp hx with rfl | hx'
        · rcases hb.1 with ⟨i, hi⟩
          rcases procRecord_wf x (hwf x (by simp)) i hi with ⟨h, hv⟩ | ⟨d2, h, hnv⟩
          · rw [hp] at h; cases h
          · exact absurd hb.2 hnv
        · exact ⟨x, hx', hb⟩
      simpa [splitLoop, hp] using
        ih (acc ++ [d]) false (fun x hx => hwf x (by simp [hx])) hbad'

/-- C3 amended: on a tabular input whose records all split into at least
seven pipe-delimited fields, a record whose field 0 parses as an integer
and whose field 4 is neither `N/A` nor a parseable float makes the parse
of the entire input fail with an error. -/
theorem splitMonitoringOutput_bad_value_errors (records : List String)
    (hwf : ∀ r ∈ records, 7 ≤ (recordFields r).length)
    (hbad : ∃ r ∈ records, IdOk r ∧ ValueBad r) :
    ∃ rs, splitMonitoringOutput records = SplitOutcome.err rs :=
  splitLoop_err records [] false hwf hbad

/-- Witness for C3 (amended) at a two-record input whose first record has
an unparseable value field. -/
theorem splitMonitoringOutput_bad_value_errors_witness :
    ∃ rs, splitMonitoringOutput ["8|n|t|s|zz|u|a", "5|n|t|s|1.0|u|a"] = SplitOutcome.err rs :=
  splitMonitoringOutput_bad_value_errors _ (by decide)
    ⟨"8|n|t|s|zz|u|a", by simp, ⟨8, by decide⟩, "zz", by decide, by decide, by decide⟩

/-- The record loop on a panic-free input with no value failures: every
row with a parsing id is kept, rows with unparseable ids are dropped, and
the loop reports no error provided the final record's id parses (the
loop's trailing `err` holds the last id-parse status). -/
theorem splitLoop_clean (records : List String) :
    ∀ acc e,
    (∀ r ∈ records, 7 ≤ (recordFields r).length) →
    (∀ r ∈ records, IdOk r → ¬ ValueBad r) →
    (∀ rl, records.getLast? = some rl → IdOk rl) →
    (records = [] → e = false) →
    splitLoop records acc e = SplitOutcome.ok (acc ++ records.filterMap parsedRow) := by
  induction records with
  | nil => intro acc e _ _ _ he; simp [splitLoop, he rfl]
  | cons r rest ih =>
    intro acc e hwf hnov hlast _
    cases hpi : parseInt64 ((recordFields r).headD "") with
    | none =>
      have hp := procRecord_skip r hpi
      have hrow : parsedRow r = none := by simp [parsedRow, hp]
      cases rest with
      | nil =>
        exfalso
        rcases hlast r (by simp) with ⟨i, hi⟩
        rw [hpi] at hi
        cases hi
      | cons r2 rest2 =>
        have step := ih acc true (fun x hx => hwf x (by simp [hx]))
          (fun x hx => hnov x (by simp [hx]))
          (fun rl hrl => hlast rl (by rw [List.getLast?_cons_cons]; exact hrl))
          (by intro hc; cases hc)
        simpa [splitLoop, hp, hrow] using step
    | some i =>
      rcases procRecord_wf r (hwf r (by simp)) i hpi with ⟨hp, hbadv⟩ | ⟨d, hp, _⟩
      · exact absurd hbadv (hnov r (by simp) ⟨i, hpi⟩)
      · have hrow : parsedRow r = some d := by simp [parsedRow, hp]
        cases rest with
        | nil => simp [splitLoop, hp, hrow]
        | cons r2 rest2 =>
          have step := ih (acc ++ [d]) false (fun x hx => hwf x (by simp [hx]))
            (fun x hx => hnov x (by simp [hx]))
            (fun rl hrl => hlast rl (by rw [List.getLast?_cons_cons]; exact hrl))
            (by intro hc; cases hc)
          simpa [splitLoop, hp, hrow] using step

/-- C4 amended: a record whose field 0 does not parse as an integer is
excluded from the parsed result; and the parse as a whole succeeds
without error provided every record splits into at least seven fields, no
id-parsing record has a bad value field, and the input's FINAL record has
a parsing id (when the final record's id fails to parse, its stale parse
error is returned, as the counterexample shows). -/
theorem splitMonitoringOutput_skip_excluded (records : List String)
    (hwf : ∀ r ∈ records, 7 ≤ (recordFields r).length)
    (hnov : ∀ r ∈ records, IdOk r → ¬ ValueBad r)
    (hlast : ∀ rl, records.getLast? = some rl → IdOk rl) :
    splitMonitoringOutput records = SplitOutcome.ok (records.filterMap parsedRow) ∧
    ∀ r, ¬ IdOk r → parsedRow r = none := by
  constructor
  · simpa using splitLoop_clean records [] false hwf hnov hlast (fun _ => rfl)
  · intro r hnid
    have hnone : parseInt64 ((recordFields r).headD "") = none := by
      cases h : parseInt64 ((recordFields r).headD "") with
      | none => rfl
      | some i => exact absurd ⟨i, h⟩ hnid
    simp [parsedRow, procRecord_skip r hnone]

/-- Witness for C4 (amended): a skipped header-like record followed by a
well-formed final record parses cleanly with the skipped row excluded. -/
theorem splitMonitoringOutput_skip_excluded_witness :
    splitMonitoringOutput ["hdr|a|b|c|1.0|u|a", "5|n|t|s|N/A|u|a"] =
      SplitOutcome.ok [⟨5, "n", "t", "s", Val.nan, "u", "a"⟩] ∧
    ∀ r, ¬ IdOk r → parsedRow r = none := by
  have h := splitMonitoringOutput_skip_excluded ["hdr|a|b|c|1.0|u|a", "5|n|t|s|N/A|u|a"]
    (by decide)
    (by
      intro r hr _ hbad
      rcases hbad with ⟨vf, hvf, hne, hpf⟩
      rcases List.mem_cons.mp hr with rfl | hr2
      · rw [show (recordFields "hdr|a|b|c|1.0|u|a").get? 4 = some "1.0" from by decide] at hvf
        injection hvf with hv
        subst hv
        exact absurd hpf (by decide)
      · rcases List.mem_cons.mp hr2 with rfl | hr3
        · rw [show (recordFields "5|n|t|s|N/A|u|a").get? 4 = some "N/A" from by decide] at hvf
          injection hvf with hv
          subst hv
          exact hne rfl
        · cases hr3)
    (by
      intro rl hrl
      rw [show (["hdr|a|b|c|1.0|u|a", "5|n|t|s|N/A|u|a"] : List String).getLast? =
        some "5|n|t|s|N/A|u|a" from rfl] at hrl
      injection hrl with hv
      subst hv
      exact ⟨5, by decide⟩)
  exact ⟨h.1.trans (by decide), h.2⟩

/-- The accumulator-passing collector loop is the concatenation of the
per-collector blocks. -/
theorem ipmiLoop_eq (env : Env) (target : IpmiTarget) (cs : List String) :
    ∀ acc, ipmiLoop env target cs acc =
      match blocksOf env target cs with
      | .abort => .abort
      | .ret bs => .ret (acc ++ bs) := by
  induction cs with
  | nil => intro acc; simp [ipmiLoop, blocksOf]
  | cons c cs ih =>
    intro acc
    simp only [ipmiLoop, blocksOf]
    cases hb : blockOf c env target with
    | abort => rfl
    | ret b =>
      simp only [ih]
      cases hbs : blocksOf env target cs <;> simp

/-- Membership in a fold that appends `f` of every element. -/
theorem mem_foldl_append {α β : Type} (f : β → List α) (rs : List β) :
    ∀ acc x, (x ∈ rs.foldl (fun a d => a ++ f d) acc ↔ x ∈ acc ∨ ∃ d ∈ rs, x ∈ f d) := by
  induction rs with
  | nil => simp
  | cons r rs ih =>
    intro acc x
    rw [List.foldl_cons, ih]
    simp [List.mem_append, or_assoc]

/-- Every observation the classifier emits lies in one of the sensor
metric families — never the scrape-duration or availability family. -/
theorem sensorObservations_desc (d : SensorData) (t : IpmiTarget) (m : Metric)
    (hm : m ∈ sensorObservations d t) :
    m.desc ≠ durationDesc ∧ m.desc ≠ upDesc := by
  have hpool : m.desc ∈ [fanSpeedDesc, fanSpeedStateDesc, temperatureDesc,
      temperatureStateDesc, currentDesc, currentStateDesc, voltageDesc, voltageStateDesc,
      powerDesc, powerStateDesc, sensorValueDesc, sensorStateDesc] := by
    unfold sensorObservations collectTypedSensor collectGenericSensor at hm
    split_ifs at hm <;> simp at hm <;> rcases hm with rfl | rfl <;> simp
  have hclosed : ∀ dd ∈ [fanSpeedDesc, fanSpeedStateDesc, temperatureDesc,
      temperatureStateDesc, currentDesc, currentStateDesc, voltageDesc, voltageStateDesc,
      powerDesc, powerStateDesc, sensorValueDesc, sensorStateDesc],
      dd ≠ durationDesc ∧ dd ≠ upDesc := by decide
  exact hclosed _ hpool

/-- The monitoring sub-collector's metrics all come from the classifier. -/
theorem collectMonitoring_desc (env : Env) (target : IpmiTarget) (up : Nat)
    (ms : List Metric) (m : Metric)
    (h : collectMonitoring env target = .ret (up, ms)) (hm : m ∈ ms) :
    m.desc ≠ durationDesc ∧ m.desc ≠ upDesc := by
  unfold collectMonitoring at h
  split at h
  · injection h with h2
    injection h2 with hu hms
    subst hms
    cases hm
  · split at h
    · cases h
    · injection h with h2
      injection h2 with hu hms
      subst hms
      cases hm
    · injection h with h2
      injection h2 with hu hms
      subst hms
      rcases (mem_foldl_append _ _ _ _).mp hm with hc | ⟨d, _, hd⟩
      · cases hc
      · exact sensorObservations_desc _ _ _ hd

/-- The DCMI sub-collector's metric slot, when present, is the power
consumption observation. -/
theorem collectDCMI_desc (env : Env) (target : IpmiTarget) (m : Metric)
    (h : (collectDCMI env target).2 = some m) :
    m.desc = powerConsumption := by
  unfold collectDCMI at h
  split at h
  · cases h
  · split at h
    · cases h
    · injection h with h2
      rw [← h2]

/-- The chassis sub-collector's metrics all belong to the chassis
families. -/
theorem collectChassisState_desc (env : Env) (target : IpmiTarget) (m : Metric)
    (hm : m ∈ (collectChassisState env target).2) :
    m.desc ≠ durationDesc ∧ m.desc ≠ upDesc := by
  unfold collectChassisState at hm
  split at hm
  · cases hm
  · split at hm
    · cases hm
    · have hclosed : ∀ dd ∈ [chassisPowerState, chassisDriveFault, chassisCoolingFault],
          dd ≠ durationDesc ∧ dd ≠ upDesc := by decide
      refine hclosed m.desc ?_
      split at hm
      · simp at hm
        subst hm
        simp
      · split at hm
        · simp at hm
          rcases hm with rfl | rfl <;> simp
        · simp at hm
          rcases hm with rfl | rfl | rfl <;> simp

/-- Each collector's block carries no scrape-duration observation and
exactly one availability observation: the collector's name, the target
host, and the collector's own availability flag. -/
theorem blockOf_shape (c : String) (env : Env) (target : IpmiTarget)
    (b : List (Option Metric)) (hb : blockOf c env target = .ret b) :
    durationCount b = 0 ∧
    upEntries b = [([c, target.Host], Val.num (collectorUp c env target) 0)] := by
  have hdu : ¬ (upDesc = durationDesc) := by decide
  have hpu : ¬ (powerConsumption = upDesc) := by decide
  have hpd : ¬ (powerConsumption = durationDesc) := by decide
  have huu : (upDesc = upDesc) := rfl
  unfold blockOf at hb
  by_cases h1 : c = "ipmimonitoring"
  · subst h1
    rw [if_pos rfl] at hb
    cases hmon : collectMonitoring env target with
    | abort =>
      rw [hmon] at hb
      exact Outcome.noConfusion hb
    | ret r =>
      obtain ⟨up, ms⟩ := r
      rw [hmon] at hb
      injection hb with hb
      subst hb
      have hms : ∀ m ∈ ms, m.desc ≠ durationDesc ∧ m.desc ≠ upDesc :=
        fun m hm => collectMonitoring_desc env target up ms m hmon hm
      constructor
      · rw [durationCount, List.countP_append]
        have hz : (ms.map some).countP isDurationSlot = 0 := by
          rw [List.countP_eq_zero]
          rintro a ha
          rcases List.mem_map.mp ha with ⟨m, hmm, rfl⟩
          simp [isDurationSlot, (hms m hmm).1]
        rw [hz]
        simp [isDurationSlot, markCollectorUp, hdu]
      · rw [upEntries, List.filterMap_append]
        have hz : (ms.map some).filterMap upSlot = [] := by
          rw [List.filterMap_eq_nil_iff]
          rintro a ha
          rcases List.mem_map.mp ha with ⟨m, hmm, rfl⟩
          simp [upSlot, (hms m hmm).2]
        rw [hz]
        simp [markCollectorUp, upSlot, collectorUp, hmon]
  · by_cases h2 : c = "ipmi-dcmi"
    · subst h2
      rw [if_neg h1, if_pos rfl] at hb
      injection hb with hb
      subst hb
      constructor
      · rw [durationCount]
        cases hd : (collectDCMI env target).2 with
        | none => simp [hd, isDurationSlot, markCollectorUp, hdu]
        | some m =>
          have hm := collectDCMI_desc env target m hd
          simp [hd, isDurationSlot, markCollectorUp, hm, hdu, hpd]
      · rw [upEntries]
        cases hd : (collectDCMI env target).2 with
        | none => simp [hd, markCollectorUp, upSlot, collectorUp, h1]
        | some m =>
          have hm := collectDCMI_desc env target m hd
          simp [hd, markCollectorUp, upSlot, collectorUp, h1, hm, hpu]
    · by_cases h3 : c = "ipmi-chassis"
      · subst h3
        rw [if_neg h1, if_neg h2, if_pos rfl] at hb
        injection hb with hb
        subst hb
        have hms : ∀ m ∈ (collectChassisState env target).2,
            m.desc ≠ durationDesc ∧ m.desc ≠ upDesc :=
          fun m hm => collectChassisState_desc env target m hm
        constructor
        · rw [durationCount, List.countP_append]
          have hz : ((collectChassisState env target).2.map some).countP isDurationSlot = 0 := by
            rw [List.countP_eq_zero]
            rintro a ha
            rcases List.mem_map.mp ha with ⟨m, hmm, rfl⟩
            simp [isDurationSlot, (hms m hmm).1]
          rw [hz]
          simp [isDurationSlot, markCollectorUp, hdu]
        · rw [upEntries, List.filterMap_append]
          have hz : ((collectChassisState env target).2.map some).filterMap upSlot = [] := by
            rw [List.filterMap_eq_nil_iff]
            rintro a ha
            rcases List.mem_map.mp ha with ⟨m, hmm, rfl⟩
            simp [upSlot, (hms m hmm).2]
          rw [hz]
          simp [markCollectorUp, upSlot, collectorUp, h1, h2]
      · rw [if_neg h1, if_neg h2, if_neg h3] at hb
        injection hb with hb
        subst hb
        constructor
        · simp [durationCount, isDurationSlot, markCollectorUp, hdu]
        · simp [upEntries, upSlot, markCollectorUp, collectorUp, h1, h2, h3]

/-- The concatenated blocks carry no scrape-duration observation and one
availability observation per configured collector, in configuration
order. -/
theorem blocksOf_shape (env : Env) (target : IpmiTarget) (cs : List String) :
    ∀ bs, blocksOf env target cs = .ret bs →
    durationCount bs = 0 ∧
    upEntries bs = cs.map (fun c => ([c, target.Host], Val.num (collectorUp c env target) 0)) := by
  induction cs with
  | nil =>
    intro bs h
    injection h with h
    subst h
    simp [durationCount, upEntries]
  | cons c cs ih =>
    intro bs h
    unfold blocksOf at h
    cases hb : blockOf c env target with
    | abort =>
      simp only [hb] at h
      exact Outcome.noConfusion h
    | ret b =>
      simp only [hb] at h
      cases hbs : blocksOf env target cs with
      | abort =>
        simp only [hbs] at h
        exact Outcome.noConfusion h
      | ret bs2 =>
        simp only [hbs, Outcome.ret.injEq] at h
        subst h
        obtain ⟨hd1, hu1⟩ := blockOf_shape c env target b hb
        obtain ⟨hd2, hu2⟩ := ih bs2 hbs
        refine ⟨?_, ?_⟩
        · unfold durationCount at hd1 hd2 ⊢
          rw [List.countP_append, hd1, hd2]
        · unfold upEntries at hu1 hu2 ⊢
          rw [List.filterMap_append, hu1, hu2, List.map_cons]
          rfl

/-- A failing monitoring sub-collector reports availability 0. -/
theorem monitoringFails_up (env : Env) (target : IpmiTarget) (h : monitoringFails env) :
    collectorUp "ipmimonitoring" env target = 0 := by
  rw [collectorUp, if_pos rfl]
  rcases h with ⟨e, he⟩ | ⟨out, rs, ho, hs⟩
  · have hcm : collectMonitoring env target = .ret (0, []) := by
      unfold collectMonitoring
      simp only [he]
    rw [hcm]
  · have hcm : collectMonitoring env target = .ret (0, []) := by
      unfold collectMonitoring
      simp only [ho, hs]
    rw [hcm]

/-- A failing DCMI sub-collector reports availability 0. -/
theorem dcmiFails_up (env : Env) (target : IpmiTarget) (h : dcmiFails env) :
    collectorUp "ipmi-dcmi" env target = 0 := by
  rw [collectorUp, if_neg (by decide), if_pos rfl]
  rcases h with ⟨e, he⟩ | ⟨out, ho, hg⟩
  · have hcd : collectDCMI env target = (0, none) := by
      unfold collectDCMI
      simp only [he]
    rw [hcd]
  · have hcd : collectDCMI env target = (0, none) := by
      unfold collectDCMI
      simp only [ho, hg]
    rw [hcd]

/-- A failing chassis sub-collector reports availability 0. -/
theorem chassisFails_up (env : Env) (target : IpmiTarget) (h : chassisFails env) :
    collectorUp "ipmi-chassis" env target = 0 := by
  rw [collectorUp, if_neg (by decide), if_neg (by decide), if_pos rfl]
  rcases h with ⟨e, he⟩ | ⟨out, ho, hg⟩
  · unfold collectChassisState
    simp only [he]
  · unfold collectChassisState
    simp only [ho]
    cases hp : getChassis out (matchLabeled "System Power") with
    | none => rfl
    | some v1 =>
      cases hd : getChassis out (matchLabeled "Drive Fault") with
      | none => rfl
      | some v2 =>
        cases hc : getChassis out (matchLabeled "Cooling/fan fault") with
        | none => rfl
        | some v3 =>
          exfalso
          rcases hg with hx | hx | hx
          · rw [hx] at hp; cases hp
          · rw [hx] at hd; cases hd
          · rw [hx] at hc; cases hc

/-- C5: whenever the per-target collection returns (does not abort),
exactly one scrape-duration observation is published for the target;
exactly one availability observation per configured sub-collector is
published, in configuration order, each carrying that collector's own
availability flag (so every configured sub-collector runs and failures
touch only their own outcome); and a sub-collector whose command
execution or parsing fails has availability flag 0. -/
theorem IpmiCollect_outcome_containment (cfg : List String) (env : Env)
    (target : IpmiTarget) (l : List (Option Metric))
    (hret : IpmiCollect cfg env target = .ret l) :
    durationCount l = 1 ∧
    upEntries l = cfg.map (fun c => ([c, target.Host], Val.num (collectorUp c env target) 0)) ∧
    (monitoringFails env → collectorUp "ipmimonitoring" env target = 0) ∧
    (dcmiFails env → collectorUp "ipmi-dcmi" env target = 0) ∧
    (chassisFails env → collectorUp "ipmi-chassis" env target = 0) := by
  rw [IpmiCollect, ipmiLoop_eq] at hret
  cases hbs : blocksOf env target cfg with
  | abort =>
    rw [hbs] at hret
    exact Outcome.noConfusion hret
  | ret bs =>
    rw [hbs] at hret
    injection hret with hret
    subst hret
    obtain ⟨hd, hu⟩ := blocksOf_shape env target cfg bs hbs
    refine ⟨?_, ?_, monitoringFails_up env target, dcmiFails_up env target,
      chassisFails_up env target⟩
    · unfold durationCount at hd ⊢
      simp [List.countP_cons, hd, isDurationSlot]
    · unfold upEntries at hu ⊢
      simp [List.filterMap_cons, upSlot, hu, show ¬ (durationDesc = upDesc) from by decide]

/-- Witness for C5: three configured collectors (the monitoring one
succeeding on empty output, the DCMI one failing, one unknown name). -/
theorem IpmiCollect_outcome_containment_witness :
    durationCount [some ⟨durationDesc, Val.num 0 0, ["h"]⟩,
      some ⟨upDesc, Val.num 1 0, ["ipmimonitoring", "h"]⟩, none,
      some ⟨upDesc, Val.num 0 0, ["ipmi-dcmi", "h"]⟩,
      some ⟨upDesc, Val.num 0 0, ["bogus", "h"]⟩] = 1 ∧
    upEntries [some ⟨durationDesc, Val.num 0 0, ["h"]⟩,
      some ⟨upDesc, Val.num 1 0, ["ipmimonitoring", "h"]⟩, none,
      some ⟨upDesc, Val.num 0 0, ["ipmi-dcmi", "h"]⟩,
      some ⟨upDesc, Val.num 0 0, ["bogus", "h"]⟩] =
      (["ipmimonitoring", "ipmi-dcmi", "bogus"].map
        (fun c => ([c, (⟨"h", "u", "p"⟩ : IpmiTarget).Host],
          Val.num (collectorUp c ⟨.ok "", .error "x", .error "y", Val.num 0 0⟩ ⟨"h", "u", "p"⟩) 0))) ∧
    (monitoringFails ⟨.ok "", .error "x", .error "y", Val.num 0 0⟩ →
      collectorUp "ipmimonitoring" ⟨.ok "", .error "x", .error "y", Val.num 0 0⟩ ⟨"h", "u", "p"⟩ = 0) ∧
    (dcmiFails ⟨.ok "", .error "x", .error "y", Val.num 0 0⟩ →
      collectorUp "ipmi-dcmi" ⟨.ok "", .error "x", .error "y", Val.num 0 0⟩ ⟨"h", "u", "p"⟩ = 0) ∧
    (chassisFails ⟨.ok "", .error "x", .error "y", Val.num 0 0⟩ →
      collectorUp "ipmi-chassis" ⟨.ok "", .error "x", .error "y", Val.num 0 0⟩ ⟨"h", "u", "p"⟩ = 0) :=
  IpmiCollect_outcome_containment ["ipmimonitoring", "ipmi-dcmi", "bogus"]
    ⟨.ok "", .error "x", .error "y", Val.num 0 0⟩ ⟨"h", "u", "p"⟩ _ (by decide)

/-- Everything a configured collector's block publishes ends up in the
concatenated blocks. -/
theorem blocksOf_mem (env : Env) (target : IpmiTarget) (cs : List String) :
    ∀ bs, blocksOf env target cs = .ret bs → ∀ c ∈ cs, ∀ b, blockOf c env target = .ret b →
    ∀ x ∈ b, x ∈ bs := by
  induction cs with
  | nil =>
    intro bs h c hc
    cases hc
  | cons c0 cs ih =>
    intro bs h c hc b hbk x hx
    unfold blocksOf at h
    cases hb0 : blockOf c0 env target with
    | abort =>
      simp only [hb0] at h
      exact Outcome.noConfusion h
    | ret b0 =>
      simp only [hb0] at h
      cases hbs : blocksOf env target cs with
      | abort =>
        simp only [hbs] at h
        exact Outcome.noConfusion h
      | ret bs2 =>
        simp only [hbs, Outcome.ret.injEq] at h
        subst h
        rcases List.mem_cons.mp hc with rfl | hc2
        · rw [hbk] at hb0
          injection hb0 with he
          subst he
          exact List.mem_append.mpr (Or.inl hx)
        · exact List.mem_append.mpr (Or.inr (ih bs2 hbs c hc2 b hbk x hx))

/-- A failing DCMI sub-collector returns the zero availability flag
together with the nil metric slot. -/
theorem dcmiFails_collect (env : Env) (target : IpmiTarget) (h : dcmiFails env) :
    collectDCMI env target = (0, none) := by
  rcases h with ⟨e, he⟩ | ⟨out, ho, hg⟩
  · unfold collectDCMI
    simp only [he]
  · unfold collectDCMI
    simp only [ho, hg]

/-- C9: when `ipmi-dcmi` is configured and its sub-collector fails, the
per-target published list contains the nil metric slot the failing
sub-collector returned, next to the availability-0 observation for
`ipmi-dcmi`. -/
theorem IpmiCollect_dcmi_failure_nil_slot (cfg : List String) (env : Env)
    (target : IpmiTarget) (l : List (Option Metric))
    (hret : IpmiCollect cfg env target = .ret l)
    (hmem : "ipmi-dcmi" ∈ cfg) (hfail : dcmiFails env) :
    (none : Option Metric) ∈ l ∧ some (markCollectorUp "ipmi-dcmi" 0 target) ∈ l := by
  rw [IpmiCollect, ipmiLoop_eq] at hret
  cases hbs : blocksOf env target cfg with
  | abort =>
    rw [hbs] at hret
    exact Outcome.noConfusion hret
  | ret bs =>
    rw [hbs] at hret
    injection hret with hret
    subst hret
    have hcd := dcmiFails_collect env target hfail
    have hblock : blockOf "ipmi-dcmi" env target =
        .ret [none, some (markCollectorUp "ipmi-dcmi" 0 target)] := by
      unfold blockOf
      rw [if_neg (by decide), if_pos rfl, hcd]
      rfl
    have hsub := blocksOf_mem env target cfg bs hbs "ipmi-dcmi" hmem _ hblock
    exact ⟨List.mem_append.mpr (Or.inr (hsub none (by simp))),
      List.mem_append.mpr (Or.inr (hsub _ (by simp)))⟩

/-- Witness for C9: one configured collector, `ipmi-dcmi`, whose command
fails; the published list is the duration slot, the nil slot, and the
availability-0 observation. -/
theorem IpmiCollect_dcmi_failure_nil_slot_witness :
    (none : Option Metric) ∈ [some ⟨durationDesc, Val.num 0 0, ["h"]⟩, none,
      some ⟨upDesc, Val.num 0 0, ["ipmi-dcmi", "h"]⟩] ∧
    some (markCollectorUp "ipmi-dcmi" 0 ⟨"h", "u", "p"⟩) ∈
      [some ⟨durationDesc, Val.num 0 0, ["h"]⟩, none,
        some ⟨upDesc, Val.num 0 0, ["ipmi-dcmi", "h"]⟩] :=
  IpmiCollect_dcmi_failure_nil_slot ["ipmi-dcmi"]
    ⟨.error "m", .error "x", .error "c", Val.num 0 0⟩ ⟨"h", "u", "p"⟩ _
    (by decide) (by simp) (Or.inl ⟨"x", rfl⟩)

/-- The chassis block publishes whatever partial metrics the chassis
sub-collector returned, together with its availability observation. -/
theorem chassis_block_publish (env : Env) (target : IpmiTarget) (cfg : List String)
    (l : List (Option Metric)) (up : Nat) (ms : List Metric)
    (hcs : collectChassisState env target = (up, ms))
    (hmem : "ipmi-chassis" ∈ cfg) (hret : IpmiCollect cfg env target = .ret l) :
    (∀ m ∈ ms, some m ∈ l) ∧ some (markCollectorUp "ipmi-chassis" up target) ∈ l := by
  rw [IpmiCollect, ipmiLoop_eq] at hret
  cases hbs : blocksOf env target cfg with
  | abort =>
    rw [hbs] at hret
    exact Outcome.noConfusion hret
  | ret bs =>
    rw [hbs] at hret
    injection hret with hret
    subst hret
    have hblock : blockOf "ipmi-chassis" env target =
        .ret (ms.map some ++ [some (markCollectorUp "ipmi-chassis" up target)]) := by
      unfold blockOf
      rw [if_neg (by decide), if_neg (by decide), if_pos rfl, hcs]
    have hsub := blocksOf_mem env target cfg bs hbs "ipmi-chassis" hmem _ hblock
    constructor
    · intro m hm
      exact List.mem_append.mpr (Or.inr (hsub (some m)
        (List.mem_append.mpr (Or.inl (List.mem_map.mpr ⟨m, hm, rfl⟩)))))
    · exact List.mem_append.mpr (Or.inr (hsub _ (List.mem_append.mpr (Or.inr (by simp)))))

/-- The chassis sub-collector when the power pattern matches but the
drive-fault pattern does not: availability 0 with the power metric
already built. -/
theorem collectChassisState_drive_missing (env : Env) (target : IpmiTarget)
    (out v : String) (hok : env.chassis = .ok out)
    (hpow : getValue out (matchLabeled "System Power") = some v)
    (hdrive : getValue out (matchLabeled "Drive Fault") = none) :
    collectChassisState env target =
      (0, [⟨chassisPowerState, chassisVal v, [target.Host]⟩]) := by
  have hgp : getChassis out (matchLabeled "System Power") = some (chassisVal v) := by
    rw [getChassis, hpow, Option.map_some']
  have hgd : getChassis out (matchLabeled "Drive Fault") = none := by
    rw [getChassis, hdrive, Option.map_none']
  unfold collectChassisState
  simp only [hok, hgp, hgd]

/-- The chassis sub-collector when power and drive match but the cooling
pattern does not: availability 0 with the two metrics already built. -/
theorem collectChassisState_cooling_missing (env : Env) (target : IpmiTarget)
    (out v w : String) (hok : env.chassis = .ok out)
    (hpow : getValue out (matchLabeled "System Power") = some v)
    (hdrive : getValue out (matchLabeled "Drive Fault") = some w)
    (hcool : getValue out (matchLabeled "Cooling/fan fault") = none) :
    collectChassisState env target =
      (0, [⟨chassisPowerState, chassisVal v, [target.Host]⟩,
           ⟨chassisDriveFault, chassisVal w, [target.Host]⟩]) := by
  have hgp : getChassis out (matchLabeled "System Power") = some (chassisVal v) := by
    rw [getChassis, hpow, Option.map_some']
  have hgd : getChassis out (matchLabeled "Drive Fault") = some (chassisVal w) := by
    rw [getChassis, hdrive, Option.map_some']
  have hgc : getChassis out (matchLabeled "Cooling/fan fault") = none := by
    rw [getChassis, hcool, Option.map_none']
  unfold collectChassisState
  simp only [hok, hgp, hgd, hgc]

/-- C10: the chassis sub-collector is not atomic on error — when the
power-state pattern matches but a later pattern (drive fault, or cooling
fault) fails, `collectChassisState` returns availability 0 together with
the chassis metrics already built, and `IpmiCollect` publishes those
partial chassis metrics next to the availability-0 observation. -/
theorem collectChassisState_partial_metrics (env : Env) (target : IpmiTarget)
    (out v : String) (cfg : List String) (l : List (Option Metric))
    (hok : env.chassis = .ok out)
    (hpow : getValue out (matchLabeled "System Power") = some v)
    (hret : IpmiCollect cfg env target = .ret l) (hmem : "ipmi-chassis" ∈ cfg) :
    (getValue out (matchLabeled "Drive Fault") = none →
      collectChassisState env target =
        (0, [⟨chassisPowerState, chassisVal v, [target.Host]⟩]) ∧
      some (⟨chassisPowerState, chassisVal v, [target.Host]⟩ : Metric) ∈ l ∧
      some (markCollectorUp "ipmi-chassis" 0 target) ∈ l) ∧
    (∀ w, getValue out (matchLabeled "Drive Fault") = some w →
      getValue out (matchLabeled "Cooling/fan fault") = none →
      collectChassisState env target =
        (0, [⟨chassisPowerState, chassisVal v, [target.Host]⟩,
             ⟨chassisDriveFault, chassisVal w, [target.Host]⟩]) ∧
      some (⟨chassisDriveFault, chassisVal w, [target.Host]⟩ : Metric) ∈ l ∧
      some (markCollectorUp "ipmi-chassis" 0 target) ∈ l) := by
  constructor
  · intro hdrive
    have hcs := collectChassisState_drive_missing env target out v hok hpow hdrive
    obtain ⟨hms, hup⟩ := chassis_block_publish env target cfg l 0 _ hcs hmem hret
    exact ⟨hcs, hms _ (by simp), hup⟩
  · intro w hdrive hcool
    have hcs := collectChassisState_cooling_missing env target out v w hok hpow hdrive hcool
    obtain ⟨hms, hup⟩ := chassis_block_publish env target cfg l 0 _ hcs hmem hret
    exact ⟨hcs, hms _ (by simp), hup⟩

/-- Witness for C10: chassis output whose power line matches (`on`) but
that has no drive-fault line; the partial power metric is published next
to the availability-0 observation. -/
theorem collectChassisState_partial_metrics_witness :
    (getValue "System Power : on" (matchLabeled "Drive Fault") = none →
      collectChassisState ⟨.error "m", .error "d", .ok "System Power : on", Val.num 0 0⟩
          ⟨"h", "u", "p"⟩ =
        (0, [⟨chassisPowerState, chassisVal "on", ["h"]⟩]) ∧
      some (⟨chassisPowerState, chassisVal "on", ["h"]⟩ : Metric) ∈
        [some ⟨durationDesc, Val.num 0 0, ["h"]⟩,
         some ⟨chassisPowerState, Val.num 1 0, ["h"]⟩,
         some ⟨upDesc, Val.num 0 0, ["ipmi-chassis", "h"]⟩] ∧
      some (markCollectorUp "ipmi-chassis" 0 ⟨"h", "u", "p"⟩) ∈
        [some ⟨durationDesc, Val.num 0 0, ["h"]⟩,
         some ⟨chassisPowerState, Val.num 1 0, ["h"]⟩,
         some ⟨upDesc, Val.num 0 0, ["ipmi-chassis", "h"]⟩]) ∧
    (∀ w, getValue "System Power : on" (matchLabeled "Drive Fault") = some w →
      getValue "System Power : on" (matchLabeled "Cooling/fan fault") = none →
      collectChassisState ⟨.error "m", .error "d", .ok "System Power : on", Val.num 0 0⟩
          ⟨"h", "u", "p"⟩ =
        (0, [⟨chassisPowerState, chassisVal "on", ["h"]⟩,
             ⟨chassisDriveFault, chassisVal w, ["h"]⟩]) ∧
      some (⟨chassisDriveFault, chassisVal w, ["h"]⟩ : Metric) ∈
        [some ⟨durationDesc, Val.num 0 0, ["h"]⟩,
         some ⟨chassisPowerState, Val.num 1 0, ["h"]⟩,
         some ⟨upDesc, Val.num 0 0, ["ipmi-chassis", "h"]⟩] ∧
      some (markCollectorUp "ipmi-chassis" 0 ⟨"h", "u", "p"⟩) ∈
        [some ⟨durationDesc, Val.num 0 0, ["h"]⟩,
         some ⟨chassisPowerState, Val.num 1 0, ["h"]⟩,
         some ⟨upDesc, Val.num 0 0, ["ipmi-chassis", "h"]⟩]) :=
  collectChassisState_partial_metrics
    ⟨.error "m", .error "d", .ok "System Power : on", Val.num 0 0⟩ ⟨"h", "u", "p"⟩
    "System Power : on" "on" ["ipmi-chassis"]
    [some ⟨durationDesc, Val.num 0 0, ["h"]⟩,
     some ⟨chassisPowerState, Val.num 1 0, ["h"]⟩,
     some ⟨upDesc, Val.num 0 0, ["ipmi-chassis", "h"]⟩]
    rfl (by decide) (by decide) (by simp)

end IpmiExporter
